import Mathlib

/-!
Verification of the live-auction bidding core of the bidmaster backend.

The definitions below are a shallow embedding of the TypeScript sources:
  * `src/src/database/models/Auction.ts` (the `Auction` model, its
    `isLive` and `getMinNextBid` methods and the column defaults),
  * `src/src/services/bid.service.ts` (`BidService.placeBid`),
  * `src/src/services/auction.service.ts` (`AuctionService.updateAuctionStatus`,
    `AuctionService.updateAuction`, `AuctionService.getAuctionById`),
  * `src/src/sockets/auction.socket.ts` (the periodic sweep inside
    `setupAuctionSocket`).

Timestamps are modelled as integer epoch milliseconds, monetary amounts as
integers.  JavaScript falsy fallbacks (`x || d`) on numeric config fields are
modelled by `jsOrInt`.  Sequelize transactions are modelled by store-passing
functions that return the pre-call store whenever the operation throws
(`transaction.rollback()` in the `catch` block restores the database).
-/

namespace BidMaster

/-- The seven auction lifecycle statuses from the `status` ENUM column. -/
inductive AuctionStatus
  | draft
  | scheduled
  | live
  | paused
  | ended
  | cancelled
  | sold
deriving DecidableEq

/-- JavaScript numeric `x || d`: a missing value or a zero value falls back
to the default `d`; any other number is kept. -/
def jsOrInt : Option Int → Int → Int
  | none, d => d
  | some v, d => if v = 0 then d else v

/-- The `auctionConfig` JSONB object, restricted to the fields the bidding
core reads.  `bidIncrement` and `maxExtensions` are read through `||`
fallbacks in the source, so they are kept optional here; `extensionTime`
is in seconds, as in the source. -/
structure AuctionConfig where
  startingBid : Int
  bidIncrement : Option Int
  autoExtend : Bool
  extensionTime : Int
  maxExtensions : Option Int
deriving DecidableEq

/-- The `Auction` row, restricted to the fields the bidding core reads or
writes.  `biddingStartsAt`/`biddingEndsAt` are the `timing` JSONB fields;
`extensions` and `lastExtendedAt` live inside the `metadata` JSONB object
(`metadata.extensions` is absent until the first auto-extension). -/
structure Auction where
  companyId : String
  status : AuctionStatus
  config : AuctionConfig
  biddingStartsAt : Int
  biddingEndsAt : Int
  currentHighestBid : Int
  currentHighestBidderId : Option String
  totalBids : Int
  totalBidders : Int
  totalViews : Int
  extensions : Option Int
  lastExtendedAt : Option Int
  winnerId : Option String
  winnerAmount : Option Int
  finalAmount : Option Int
deriving DecidableEq

/-- `Auction.isLive()`: status is `live` and the current time lies in the
CLOSED interval between `timing.biddingStartsAt` and `timing.biddingEndsAt`
(the source compares with `now >= start && now <= end`). -/
def Auction.isLive (a : Auction) (now : Int) : Bool :=
  decide (a.status = AuctionStatus.live)
    && decide (a.biddingStartsAt ≤ now)
    && decide (now ≤ a.biddingEndsAt)

/-- `Auction.getMinNextBid()`: `currentHighestBid + (auctionConfig?.bidIncrement || 0)`. -/
def Auction.getMinNextBid (a : Auction) : Int :=
  a.currentHighestBid + jsOrInt a.config.bidIncrement 0

/-- `AuctionService.createAuction` persists a fresh row; the bid-derived
columns take their `Auction.init` defaults: `status` is set to `draft`
by the service, `currentHighestBid` defaults to `0` (the `startingBid`
inside `auctionConfig` is NOT copied into it), counters default to `0`
and the nullable columns to `null`. -/
def createAuction (companyId : String) (config : AuctionConfig)
    (startsAt endsAt : Int) : Auction :=
  { companyId := companyId
    status := AuctionStatus.draft
    config := config
    biddingStartsAt := startsAt
    biddingEndsAt := endsAt
    currentHighestBid := 0
    currentHighestBidderId := none
    totalBids := 0
    totalBidders := 0
    totalViews := 0
    extensions := none
    lastExtendedAt := none
    winnerId := none
    winnerAmount := none
    finalAmount := none }

/-- A row of the `User` model, restricted to what `BidService.placeBid`
reads. -/
structure User where
  id : String
  isVerified : Bool
deriving DecidableEq

/-- The typed rejection reasons thrown by `BidService.placeBid` as
`ApiResponse` errors (status code and message in the source). -/
inductive BidError
  | auctionNotFound
  | auctionNotLive
  | selfBid
  | bidderNotFound
  | bidderNotVerified
  | bidTooLow (minBid : Int)
  | persistenceFailure
deriving DecidableEq

/-- The object returned by a successful `BidService.placeBid`. -/
structure BidResult where
  amount : Int
  bidderId : String
  previousHighestBidderId : Option String
  auctionTotalBids : Int
deriving DecidableEq

/-- The mutation block of `BidService.placeBid` (lines 58 to 92): record the
previous leader, overwrite the leading bid fields, bump `totalBids`, bump
`totalBidders` when the bidder differs from the previous leader, then run
the auto-extension branch (`autoExtend` truthy, time left below
`extensionTime * 1000` milliseconds, `metadata.extensions || 0` below
`maxExtensions || 3`). -/
def applyBid (a : Auction) (bidderId : String) (amount : Int) (now : Int) : Auction :=
  let prev := a.currentHighestBidderId
  let a1 : Auction :=
    { a with
        currentHighestBid := amount
        currentHighestBidderId := some bidderId
        totalBids := a.totalBids + 1 }
  let a2 : Auction :=
    if prev ≠ some bidderId then { a1 with totalBidders := a1.totalBidders + 1 } else a1
  if a2.config.autoExtend then
    let timeLeft := a2.biddingEndsAt - now
    if timeLeft < a2.config.extensionTime * 1000 then
      let exts := jsOrInt a2.extensions 0
      if exts < jsOrInt a2.config.maxExtensions 3 then
        { a2 with
            biddingEndsAt := now + a2.config.extensionTime * 1000
            extensions := some (exts + 1)
            lastExtendedAt := some now }
      else a2
    else a2
  else a2

/-- `BidService.placeBid` from `src/src/services/bid.service.ts`.  The checks
appear in source order: auction lookup, `isLive()`, owner self-bid, bidder
lookup, bidder verification, minimum-bid, then the mutation block and the
`save`/`commit` pair.  `persistOk` models whether the save and commit
succeed; when they throw, the catch block rolls the transaction back and
rethrows a 500, modelled by `BidError.persistenceFailure`. -/
def placeBid (db : Option Auction) (findUser : Option User)
    (bidderId : String) (amount : Int) (now : Int) (persistOk : Bool) :
    Except BidError (Auction × BidResult) :=
  match db with
  | none => Except.error BidError.auctionNotFound
  | some auction =>
    if auction.isLive now then
      if auction.companyId = bidderId then Except.error BidError.selfBid
      else
        match findUser with
        | none => Except.error BidError.bidderNotFound
        | some bidder =>
          if bidder.isVerified then
            if amount < auction.getMinNextBid then
              Except.error (BidError.bidTooLow auction.getMinNextBid)
            else
              let a1 := applyBid auction bidderId amount now
              if persistOk then
                Except.ok (a1,
                  { amount := amount
                    bidderId := bidderId
                    previousHighestBidderId := auction.currentHighestBidderId
                    auctionTotalBids := a1.totalBids })
              else Except.error BidError.persistenceFailure
          else Except.error BidError.bidderNotVerified
    else Except.error BidError.auctionNotLive

/-- Store-passing view of `placeBid`: the whole body runs inside a Sequelize
transaction, so the committed database state is the updated row on success
and the untouched pre-call row on any thrown error (the catch block calls
`transaction.rollback()`). -/
def placeBidStore (db : Option Auction) (findUser : Option User)
    (bidderId : String) (amount : Int) (now : Int) (persistOk : Bool) :
    Option Auction × Except BidError BidResult :=
  match placeBid db findUser bidderId amount now persistOk with
  | Except.ok (a1, r) => (some a1, Except.ok r)
  | Except.error e => (db, Except.error e)

/-- Projection: the committed auction of a `placeBid` outcome, if any. -/
def bidOutcomeAuction : Except BidError (Auction × BidResult) → Option Auction
  | Except.ok (a, _) => some a
  | Except.error _ => none

/-- Projection: the rejection reason of a `placeBid` outcome, if any. -/
def bidOutcomeError : Except BidError (Auction × BidResult) → Option BidError
  | Except.ok _ => none
  | Except.error e => some e

/-- Convenience composition used to chain bids: the database row after a
successful `placeBid`, or `none` when the bid was rejected. -/
def stepBid (db : Option Auction) (u : User) (bidderId : String)
    (amount now : Int) : Option Auction :=
  bidOutcomeAuction (placeBid db (some u) bidderId amount now true)

/-- Membership test of `placeBid` outcomes: did the request fail with
`BidTooLow`? -/
def isBidTooLow : Except BidError (Auction × BidResult) → Bool
  | Except.error (BidError.bidTooLow _) => true
  | _ => false

/-- The errors thrown by `AuctionService` status and record updates. -/
inductive UpdateErr
  | notFound
  | notAuthorized
  | invalidStatus
deriving DecidableEq

/-- Parse the status string argument of `updateAuctionStatus` against the
`validStatuses` list; anything outside the seven enum values is rejected
with the 400 `Invalid status` response. -/
def statusOfString : String → Option AuctionStatus
  | "draft" => some AuctionStatus.draft
  | "scheduled" => some AuctionStatus.scheduled
  | "live" => some AuctionStatus.live
  | "paused" => some AuctionStatus.paused
  | "ended" => some AuctionStatus.ended
  | "cancelled" => some AuctionStatus.cancelled
  | "sold" => some AuctionStatus.sold
  | _ => none

/-- The wire spelling of each lifecycle status. -/
def statusToString : AuctionStatus → String
  | AuctionStatus.draft => "draft"
  | AuctionStatus.scheduled => "scheduled"
  | AuctionStatus.live => "live"
  | AuctionStatus.paused => "paused"
  | AuctionStatus.ended => "ended"
  | AuctionStatus.cancelled => "cancelled"
  | AuctionStatus.sold => "sold"

/-- `AuctionService.getAuctionById` increments `totalViews` and saves the
row before returning it; every service operation that starts with a lookup
therefore bumps the view counter as a committed side effect. -/
def incrementViews (a : Auction) : Auction :=
  { a with totalViews := a.totalViews + 1 }

/-- The assignment block of `updateAuctionStatus` (lines 227 to 234): set
the requested status unconditionally; when the new status is `ended` and a
highest bidder exists, copy the leading bid into `winnerId`,
`winnerAmount` and `finalAmount`.  No lifecycle transition table is
consulted anywhere in the function. -/
def applyStatus (a : Auction) (st : AuctionStatus) : Auction :=
  let a1 : Auction := { a with status := st }
  if st = AuctionStatus.ended ∧ a.currentHighestBidderId ≠ none then
    { a1 with
        winnerId := a.currentHighestBidderId
        winnerAmount := some a.currentHighestBid
        finalAmount := some a.currentHighestBid }
  else a1

/-- The permission guard shared by the `AuctionService` update paths: when
a `companyId` is supplied, it must match the auction's owner. -/
def ownerMismatch (a : Auction) (companyId : Option String) : Bool :=
  match companyId with
  | some c => !(a.companyId == c)
  | none => false

/-- `AuctionService.updateAuctionStatus`: look the auction up (bumping
`totalViews`), check ownership when a `companyId` is supplied, reject
status strings outside the enum, then apply `applyStatus` and save. -/
def updateAuctionStatus (db : Option Auction) (status : String)
    (companyId : Option String) : Option Auction × Except UpdateErr Auction :=
  match db with
  | none => (none, Except.error UpdateErr.notFound)
  | some a0 =>
    let a := incrementViews a0
    if ownerMismatch a companyId then
      (some a, Except.error UpdateErr.notAuthorized)
    else
      match statusOfString status with
      | none => (some a, Except.error UpdateErr.invalidStatus)
      | some st =>
        let a1 := applyStatus a st
        (some a1, Except.ok a1)

/-- The update payload accepted by `AuctionService.updateAuction`,
restricted to the fields relevant here.  The first six mirror the
protected attributes the function deletes from `updateData` before
applying it; `timing` and `status` pass straight through to
`auction.update`. -/
structure AuctionUpdate where
  id : Option String
  companyId : Option String
  currentHighestBid : Option Int
  currentHighestBidderId : Option (Option String)
  totalBids : Option Int
  totalBidders : Option Int
  status : Option AuctionStatus
  biddingStartsAt : Option Int
  biddingEndsAt : Option Int
deriving DecidableEq

/-- The field application of `updateAuction`: the six protected attributes
are deleted and never reach the row; everything else — including the whole
`timing` object and hence `biddingEndsAt` — is written as supplied, with
no comparison against the previous value. -/
def applyUpdate (a : Auction) (u : AuctionUpdate) : Auction :=
  { a with
      status := u.status.getD a.status
      biddingStartsAt := u.biddingStartsAt.getD a.biddingStartsAt
      biddingEndsAt := u.biddingEndsAt.getD a.biddingEndsAt }

/-- `AuctionService.updateAuction`: lookup (bumping `totalViews`),
ownership check, then `auction.update(updateData)` after the protected
fields are deleted. -/
def updateAuction (db : Option Auction) (u : AuctionUpdate)
    (companyId : Option String) : Option Auction × Except UpdateErr Auction :=
  match db with
  | none => (none, Except.error UpdateErr.notFound)
  | some a0 =>
    let a := incrementViews a0
    if ownerMismatch a companyId then
      (some a, Except.error UpdateErr.notAuthorized)
    else
      let a1 := applyUpdate a u
      (some a1, Except.ok a1)

/-- One iteration step of the periodic sweep in `setupAuctionSocket`: the
query selects rows with `status = live`, and each selected auction that
fails `isLive()` gets `status = ended` assigned and saved — nothing else
on the row is touched (in particular `winnerId` and `finalAmount` are not
assigned). -/
def sweepOne (now : Int) (a : Auction) : Auction :=
  if a.status = AuctionStatus.live ∧ ¬ (a.isLive now = true) then
    { a with status := AuctionStatus.ended }
  else a

/-- A full run of the periodic sweep over the auction table. -/
def sweep (now : Int) (db : List Auction) : List Auction :=
  db.map (sweepOne now)

/-! Concrete rows used by the counterexamples and witnesses below. -/

/-- The `auctionConfig` of Scenario A of the spec: `startingBid = 1000`,
`bidIncrement = 100`; auto-extension switched off so the scenarios stay
pure bid arithmetic. -/
def demoConfig : AuctionConfig :=
  { startingBid := 1000
    bidIncrement := some 100
    autoExtend := false
    extensionTime := 300
    maxExtensions := some 3 }

/-- The Scenario A auction: freshly created with `demoConfig` and switched
to `live`; all bid-derived columns still hold their creation defaults. -/
def scenarioAAuction : Auction :=
  { createAuction "companyA" demoConfig 0 1000000000 with status := AuctionStatus.live }

/-- A verified bidder account. -/
def verifiedBidder : User := { id := "bidder1", isVerified := true }

/-- A live auction that has passed its deadline while holding bids: the
input of the sweep-path winner question. -/
def expiredBiddedAuction : Auction :=
  { createAuction "companyB" demoConfig 0 1000 with
      status := AuctionStatus.live
      currentHighestBid := 500
      currentHighestBidderId := some "user9"
      totalBids := 4
      totalBidders := 2 }

/-- A freshly created auction still in `draft`. -/
def draftAuction : Auction := createAuction "companyC" demoConfig 0 1000000

/-- A fresh live auction used for bid sequences. -/
def freshLiveAuction : Auction :=
  { createAuction "companyD" demoConfig 0 1000000 with status := AuctionStatus.live }

/-- Verified bidder accounts for multi-bidder sequences. -/
def bidderA : User := { id := "alice", isVerified := true }

/-- Second verified bidder account. -/
def bidderB : User := { id := "bob", isVerified := true }

/-- A live auction whose deadline is the instant 1000, for the boundary
bid. -/
def boundaryAuction : Auction :=
  { createAuction "companyE" demoConfig 0 1000 with status := AuctionStatus.live }

/-- A live auto-extending auction configured with `maxExtensions = 0`,
close to its deadline. -/
def zeroMaxExtAuction : Auction :=
  { createAuction "companyF"
      { startingBid := 0
        bidIncrement := some 100
        autoExtend := true
        extensionTime := 300
        maxExtensions := some 0 } 0 5000 with
      status := AuctionStatus.live }

/-- The Scenario C auction: auto-extension on, `extensionWindowSeconds`
(that is, `extensionTime`) 300, `extensionsUsed = 0`, `maxExtensions = 3`,
deadline 5 seconds away from time 0. -/
def scenarioCAuction : Auction :=
  { createAuction "companyG"
      { startingBid := 1000
        bidIncrement := some 100
        autoExtend := true
        extensionTime := 300
        maxExtensions := some 3 } 0 5000 with
      status := AuctionStatus.live
      extensions := some 0 }

/-- A live auction with a far deadline, target of the shrinking record
update. -/
def longAuction : Auction :=
  { createAuction "companyH" demoConfig 0 10000 with status := AuctionStatus.live }

/-- An `updateAuction` payload that moves `timing.biddingEndsAt` backward
to 500. -/
def shrinkUpdate : AuctionUpdate :=
  { id := none
    companyId := none
    currentHighestBid := none
    currentHighestBidderId := none
    totalBids := none
    totalBidders := none
    status := none
    biddingStartsAt := none
    biddingEndsAt := some 500 }

/-- A `live`-status auction whose bidding window has not opened yet. -/
def futureStartAuction : Auction :=
  { createAuction "companyI" demoConfig 100 1000 with status := AuctionStatus.live }

/-! Helper lemmas shared by the claim theorems. -/

/-- Unfolding of `Auction.isLive` into its three conjuncts. -/
lemma isLive_iff (a : Auction) (now : Int) :
    a.isLive now = true
      ↔ (a.status = AuctionStatus.live
          ∧ a.biddingStartsAt ≤ now ∧ now ≤ a.biddingEndsAt) := by
  simp [Auction.isLive, Bool.and_eq_true, decide_eq_true_eq, and_assoc]

/-- When every validation passes and persistence succeeds, `placeBid`
commits exactly the `applyBid` mutation and reports the totals of the
updated row. -/
lemma placeBid_ok (a : Auction) (u : User) (bidderId : String) (amount now : Int)
    (hLive : a.isLive now = true) (hSelf : a.companyId ≠ bidderId)
    (hVer : u.isVerified = true) (hMin : ¬ amount < a.getMinNextBid) :
    placeBid (some a) (some u) bidderId amount now true
      = Except.ok (applyBid a bidderId amount now,
          { amount := amount
            bidderId := bidderId
            previousHighestBidderId := a.currentHighestBidderId
            auctionTotalBids := (applyBid a bidderId amount now).totalBids }) := by
  simp [placeBid, hLive, hSelf, hVer, hMin]

/-- The auto-extension branch of `applyBid` never touches the bid fields:
they are always the straight overwrite of step 7. -/
lemma applyBid_bid_fields (a : Auction) (bidderId : String) (amount now : Int) :
    (applyBid a bidderId amount now).currentHighestBid = amount
    ∧ (applyBid a bidderId amount now).currentHighestBidderId = some bidderId
    ∧ (applyBid a bidderId amount now).totalBids = a.totalBids + 1
    ∧ (applyBid a bidderId amount now).totalBidders =
        (if a.currentHighestBidderId = some bidderId
          then a.totalBidders else a.totalBidders + 1) := by
  unfold applyBid
  dsimp only
  split_ifs <;> simp_all

/-- When the three auto-extension conditions hold, `applyBid` rewrites the
deadline and bumps the `metadata.extensions` counter. -/
lemma applyBid_extends (a : Auction) (bidderId : String) (amount now : Int)
    (hAuto : a.config.autoExtend = true)
    (hClose : a.biddingEndsAt - now < a.config.extensionTime * 1000)
    (hRoom : jsOrInt a.extensions 0 < jsOrInt a.config.maxExtensions 3) :
    (applyBid a bidderId amount now).biddingEndsAt
        = now + a.config.extensionTime * 1000
    ∧ (applyBid a bidderId amount now).extensions
        = some (jsOrInt a.extensions 0 + 1) := by
  unfold applyBid
  dsimp only
  split_ifs <;> simp_all

/-- When any auto-extension condition fails, `applyBid` leaves the deadline
and the extension counter untouched. -/
lemma applyBid_no_extend (a : Auction) (bidderId : String) (amount now : Int)
    (h : ¬ (a.config.autoExtend = true
            ∧ a.biddingEndsAt - now < a.config.extensionTime * 1000
            ∧ jsOrInt a.extensions 0 < jsOrInt a.config.maxExtensions 3)) :
    (applyBid a bidderId amount now).biddingEndsAt = a.biddingEndsAt
    ∧ (applyBid a bidderId amount now).extensions = a.extensions := by
  unfold applyBid
  dsimp only
  split_ifs <;> simp_all

/-- Committing a bid can only move the deadline forward: the extension
branch fires exactly when the old deadline is below `now + window`, and
rewrites it to `now + window`. -/
lemma applyBid_endsAt_mono (a : Auction) (bidderId : String) (amount now : Int) :
    a.biddingEndsAt ≤ (applyBid a bidderId amount now).biddingEndsAt := by
  unfold applyBid
  dsimp only
  split_ifs with h1 h2 h3 h4 <;> simp_all <;> omega

/-! Claim theorems. -/

/-- C1, counterexample.  The claim states that on a live auction with
`startingBid = 1000`, `bidIncrement = 100` and no prior bids, a bid of
1050 is rejected as `BidTooLow` with minimum 1100.  In the code the
minimum is `currentHighestBid + bidIncrement` where `currentHighestBid`
of a freshly created auction is the column default 0, so the minimum is
100 and the 1050 bid is accepted and committed. -/
theorem C1_counterexample :
    bidOutcomeError
        (placeBid (some scenarioAAuction) (some verifiedBidder) "bidder1" 1050 100 true)
      = none
    ∧ (bidOutcomeAuction
        (placeBid (some scenarioAAuction) (some verifiedBidder) "bidder1" 1050 100 true)).map
          Auction.currentHighestBid = some 1050
    ∧ (bidOutcomeAuction
        (placeBid (some scenarioAAuction) (some verifiedBidder) "bidder1" 1050 100 true)).map
          Auction.totalBids = some 1
    ∧ scenarioAAuction.config.startingBid = 1000
    ∧ scenarioAAuction.currentHighestBid = 0
    ∧ scenarioAAuction.totalBids = 0 := by
  decide

/-- C1, amended.  `placeBid` rejects with `BidTooLow` exactly when
`amount < currentHighestBid + (bidIncrement or 0)`, and a freshly created
auction has `currentHighestBid = 0` — the configured `startingBid` is not
consulted, so the very first bid only needs to reach the increment. -/
theorem C1_theorem :
    (∀ (a : Auction) (u : User) (bidderId : String) (amount now : Int) (persistOk : Bool),
        a.isLive now = true → a.companyId ≠ bidderId → u.isVerified = true →
        (isBidTooLow (placeBid (some a) (some u) bidderId amount now persistOk) = true
          ↔ amount < a.currentHighestBid + jsOrInt a.config.bidIncrement 0))
    ∧ (∀ (cid : String) (cfg : AuctionConfig) (s e : Int),
        (createAuction cid cfg s e).currentHighestBid = 0) := by
  constructor
  · intro a u bidderId amount now persistOk hLive hSelf hVer
    by_cases hMin : amount < a.getMinNextBid
    · have hMin2 : amount < a.currentHighestBid + jsOrInt a.config.bidIncrement 0 := hMin
      simp [placeBid, hLive, hSelf, hVer, hMin, isBidTooLow, hMin2]
    · have hMin2 : ¬ amount < a.currentHighestBid + jsOrInt a.config.bidIncrement 0 := hMin
      by_cases hp : persistOk = true <;>
        simp [placeBid, hLive, hSelf, hVer, hMin, hp, isBidTooLow, hMin2]
  · intro cid cfg s e
    rfl

/-- C1, witness: the amended rule evaluated at Scenario A with a 1050 bid
on the fresh live auction. -/
theorem C1_witness :
    isBidTooLow (placeBid (some scenarioAAuction) (some verifiedBidder) "bidder1" 1050 100 true) = true
      ↔ (1050 : Int) < scenarioAAuction.currentHighestBid
          + jsOrInt scenarioAAuction.config.bidIncrement 0 :=
  C1_theorem.1 scenarioAAuction verifiedBidder "bidder1" 1050 100 true
    (by decide) (by decide) (by decide)

/-- C2: the periodic sweep performs the `live` to `ended` transition by
assigning `status = ended` alone.  Evaluated at a live auction past its
deadline with a standing highest bidder, the swept row keeps
`winnerId = null` and `finalAmount = null` — while the
`updateAuctionStatus` path on the same row does set the winner fields, as
the claim (and the sweep's own `AUCTION_WON` broadcast, which reads
`auction.winnerId` right after the save) expects. -/
theorem C2_theorem :
    (sweepOne 2000 expiredBiddedAuction).status = AuctionStatus.ended
    ∧ expiredBiddedAuction.currentHighestBidderId = some "user9"
    ∧ (sweepOne 2000 expiredBiddedAuction).winnerId = none
    ∧ (sweepOne 2000 expiredBiddedAuction).finalAmount = none
    ∧ ((updateAuctionStatus (some expiredBiddedAuction) "ended" none).1.map
        Auction.winnerId) = some (some "user9")
    ∧ ((updateAuctionStatus (some expiredBiddedAuction) "ended" none).1.map
        Auction.finalAmount) = some (some 500) := by
  decide

/-- C3, counterexample.  The claim states that an illegal lifecycle
transition such as `draft` to `live` fails with `InvalidTransition` and
leaves the state unchanged; in the code `updateAuctionStatus` applies any
status from the seven-value enum without consulting a transition table,
so the draft auction goes straight to `live`. -/
theorem C3_counterexample :
    draftAuction.status = AuctionStatus.draft
    ∧ ((updateAuctionStatus (some draftAuction) "live" none).1.map Auction.status)
        = some AuctionStatus.live
    ∧ ((updateAuctionStatus (some draftAuction) "live" none).2.toOption.map
        Auction.status) = some AuctionStatus.live := by
  decide

/-- C3, amended.  `updateAuctionStatus` validates only membership in the
seven-value status enum: every enum status — including `live` requested on
a `draft` auction — is applied unconditionally (with the winner fields
derived when the new status is `ended`), and only a string outside the
enum is rejected, leaving everything but the lookup's view-counter bump
unchanged. -/
theorem C3_theorem (a : Auction) (st : AuctionStatus) :
    updateAuctionStatus (some a) (statusToString st) none
      = (some (applyStatus (incrementViews a) st),
          Except.ok (applyStatus (incrementViews a) st))
    ∧ (applyStatus (incrementViews a) st).status = st
    ∧ updateAuctionStatus (some a) "archived" none
      = (some (incrementViews a), Except.error UpdateErr.invalidStatus) := by
  refine ⟨?_, ?_, ?_⟩
  · cases st <;> rfl
  · unfold applyStatus
    dsimp only
    split_ifs <;> rfl
  · rfl

/-- C4, counterexample.  The claim states that `totalBidders` counts each
bidder at most once, so after the sequence alice, bob, alice it should be
2; the code increments it whenever the bidder differs from the previous
leader, giving 3. -/
theorem C4_counterexample :
    ((stepBid (stepBid (stepBid (some freshLiveAuction) bidderA "alice" 200 10)
        bidderB "bob" 400 20) bidderA "alice" 600 30).map Auction.totalBidders)
      = some 3
    ∧ some 3 ≠ (some 2 : Option Int) := by
  decide

/-- C4, amended.  A committed bid sets `currentHighestBid = amount` and
`currentHighestBidderId = bidderId` and increments `totalBids`;
`totalBidders` is incremented whenever `bidderId` differs from the
previous `currentHighestBidderId` (in particular on the first bid), so a
bidder who re-takes the lead after being outbid is counted again. -/
theorem C4_theorem (a : Auction) (u : User) (bidderId : String) (amount now : Int)
    (hLive : a.isLive now = true) (hSelf : a.companyId ≠ bidderId)
    (hVer : u.isVerified = true) (hMin : ¬ amount < a.getMinNextBid) :
    stepBid (some a) u bidderId amount now = some (applyBid a bidderId amount now)
    ∧ (applyBid a bidderId amount now).currentHighestBid = amount
    ∧ (applyBid a bidderId amount now).currentHighestBidderId = some bidderId
    ∧ (applyBid a bidderId amount now).totalBids = a.totalBids + 1
    ∧ (applyBid a bidderId amount now).totalBidders =
        (if a.currentHighestBidderId = some bidderId
          then a.totalBidders else a.totalBidders + 1) := by
  have h := applyBid_bid_fields a bidderId amount now
  refine ⟨?_, h.1, h.2.1, h.2.2.1, h.2.2.2⟩
  unfold stepBid
  rw [placeBid_ok a u bidderId amount now hLive hSelf hVer hMin]
  rfl

/-- C4, witness: the amended commit rule evaluated at the first bid of the
alice, bob, alice sequence. -/
theorem C4_witness :
    stepBid (some freshLiveAuction) bidderA "alice" 200 10
        = some (applyBid freshLiveAuction "alice" 200 10)
    ∧ (applyBid freshLiveAuction "alice" 200 10).currentHighestBid = 200
    ∧ (applyBid freshLiveAuction "alice" 200 10).currentHighestBidderId = some "alice"
    ∧ (applyBid freshLiveAuction "alice" 200 10).totalBids = freshLiveAuction.totalBids + 1
    ∧ (applyBid freshLiveAuction "alice" 200 10).totalBidders =
        (if freshLiveAuction.currentHighestBidderId = some "alice"
          then freshLiveAuction.totalBidders else freshLiveAuction.totalBidders + 1) :=
  C4_theorem freshLiveAuction bidderA "alice" 200 10
    (by decide) (by decide) (by decide) (by decide)

/-- C5, counterexample.  The claim states the bidding window is the
half-open interval, so a bid arriving exactly at `biddingEndsAt` is
rejected with `AuctionNotLive`; `Auction.isLive()` compares with
`now <= biddingEndsAt`, so that bid passes the liveness check and is
accepted. -/
theorem C5_counterexample :
    bidOutcomeError
        (placeBid (some boundaryAuction) (some verifiedBidder) "bidder1" 5000 1000 true)
      = none
    ∧ boundaryAuction.biddingEndsAt = 1000
    ∧ boundaryAuction.status = AuctionStatus.live := by
  decide

/-- C5, amended.  `placeBid` rejects with `AuctionNotLive` exactly when it
is not the case that the status is `live` and the current time lies in the
CLOSED interval from `biddingStartsAt` to `biddingEndsAt`: a bid exactly
at `biddingEndsAt` is admitted, one strictly later is rejected, and a
`live`-status auction outside the window is rejected. -/
theorem C5_theorem (a : Auction) (u : Option User) (bidderId : String)
    (amount now : Int) (persistOk : Bool) :
    bidOutcomeError (placeBid (some a) u bidderId amount now persistOk)
        = some BidError.auctionNotLive
      ↔ ¬ (a.status = AuctionStatus.live
            ∧ a.biddingStartsAt ≤ now ∧ now ≤ a.biddingEndsAt) := by
  by_cases h : a.isLive now = true
  · have hw := (isLive_iff a now).mp h
    have hne : bidOutcomeError (placeBid (some a) u bidderId amount now persistOk)
        ≠ some BidError.auctionNotLive := by
      rcases u with _ | bidder <;>
        · simp only [placeBid, h, if_true]
          split_ifs <;> simp [bidOutcomeError]
    simp [hne, hw.1, hw.2.1, hw.2.2]
  · have hb : a.isLive now = false := by simpa using h
    have hw : ¬ (a.status = AuctionStatus.live
        ∧ a.biddingStartsAt ≤ now ∧ now ≤ a.biddingEndsAt) :=
      fun hc => h ((isLive_iff a now).mpr hc)
    simp [placeBid, hb, bidOutcomeError, hw]

/-- C5, witness: the closed-window rule evaluated one instant after the
deadline, where the bid is indeed rejected as not live. -/
theorem C5_witness :
    bidOutcomeError
        (placeBid (some boundaryAuction) (some verifiedBidder) "bidder1" 5000 1001 true)
      = some BidError.auctionNotLive
    ↔ ¬ (boundaryAuction.status = AuctionStatus.live
          ∧ boundaryAuction.biddingStartsAt ≤ 1001
          ∧ (1001 : Int) ≤ boundaryAuction.biddingEndsAt) :=
  C5_theorem boundaryAuction (some verifiedBidder) "bidder1" 5000 1001 true

/-- C6: a bid whose bidder identity equals the auction's `companyId` never
commits — the database keeps the pre-call row — and, whenever the request
survives the earlier liveness check, the rejection is exactly the
self-bid error. -/
theorem C6_theorem (a : Auction) (u : Option User) (amount now : Int) (persistOk : Bool) :
    (placeBidStore (some a) u a.companyId amount now persistOk).1 = some a
    ∧ bidOutcomeAuction (placeBid (some a) u a.companyId amount now persistOk) = none
    ∧ (a.isLive now = true →
        bidOutcomeError (placeBid (some a) u a.companyId amount now persistOk)
          = some BidError.selfBid) := by
  by_cases h : a.isLive now = true
  · simp [placeBid, placeBidStore, h, bidOutcomeAuction, bidOutcomeError]
  · have hb : a.isLive now = false := by simpa using h
    simp [placeBid, placeBidStore, hb, bidOutcomeAuction, bidOutcomeError, h]

/-- C6, witness: the self-bid guard evaluated on a live auction whose
owner bids on it. -/
theorem C6_witness :
    (placeBidStore (some freshLiveAuction) (some bidderA)
        freshLiveAuction.companyId 500 10 true).1 = some freshLiveAuction
    ∧ bidOutcomeAuction (placeBid (some freshLiveAuction) (some bidderA)
        freshLiveAuction.companyId 500 10 true) = none
    ∧ (freshLiveAuction.isLive 10 = true →
        bidOutcomeError (placeBid (some freshLiveAuction) (some bidderA)
          freshLiveAuction.companyId 500 10 true) = some BidError.selfBid) :=
  C6_theorem freshLiveAuction (some bidderA) 500 10 true

/-- C7, counterexample.  The claim states that when `extensionsUsed` has
reached `maxExtensions` the commit leaves the deadline unchanged; with
`maxExtensions = 0` and `extensionsUsed = 0` the bound is already reached,
yet the code reads the bound through `maxExtensions || 3`, treats the
falsy 0 as 3, and extends the auction anyway. -/
theorem C7_counterexample :
    zeroMaxExtAuction.config.maxExtensions = some 0
    ∧ jsOrInt zeroMaxExtAuction.extensions 0 = 0
    ∧ zeroMaxExtAuction.biddingEndsAt = 5000
    ∧ ((stepBid (some zeroMaxExtAuction) verifiedBidder "bidder1" 100 0).map
        Auction.biddingEndsAt) = some 300000
    ∧ ((stepBid (some zeroMaxExtAuction) verifiedBidder "bidder1" 100 0).map
        Auction.extensions) = some (some 1) := by
  decide

/-- C7, amended.  On a committed bid, when `autoExtend` is on, the time
left is below `extensionTime` seconds, and the used-extension counter
(`metadata.extensions || 0`) is below the bound read as
`maxExtensions || 3` — so a zero or missing `maxExtensions` behaves as
3 — the commit sets `biddingEndsAt = now + extensionTime` seconds and
increments the counter; otherwise both are left unchanged. -/
theorem C7_theorem (a : Auction) (u : User) (bidderId : String) (amount now : Int)
    (hLive : a.isLive now = true) (hSelf : a.companyId ≠ bidderId)
    (hVer : u.isVerified = true) (hMin : ¬ amount < a.getMinNextBid) :
    stepBid (some a) u bidderId amount now = some (applyBid a bidderId amount now)
    ∧ (a.config.autoExtend = true →
        a.biddingEndsAt - now < a.config.extensionTime * 1000 →
        jsOrInt a.extensions 0 < jsOrInt a.config.maxExtensions 3 →
        (applyBid a bidderId amount now).biddingEndsAt
            = now + a.config.extensionTime * 1000
        ∧ (applyBid a bidderId amount now).extensions
            = some (jsOrInt a.extensions 0 + 1))
    ∧ (¬ (a.config.autoExtend = true
          ∧ a.biddingEndsAt - now < a.config.extensionTime * 1000
          ∧ jsOrInt a.extensions 0 < jsOrInt a.config.maxExtensions 3) →
        (applyBid a bidderId amount now).biddingEndsAt = a.biddingEndsAt
        ∧ (applyBid a bidderId amount now).extensions = a.extensions) := by
  refine ⟨?_, ?_, applyBid_no_extend a bidderId amount now⟩
  · unfold stepBid
    rw [placeBid_ok a u bidderId amount now hLive hSelf hVer hMin]
    rfl
  · intro h1 h2 h3
    exact applyBid_extends a bidderId amount now h1 h2 h3

/-- C7, witness: Scenario C — deadline 5 seconds away, window 300 seconds,
counter 0 of 3 — evaluated through the amended rule. -/
theorem C7_witness :
    stepBid (some scenarioCAuction) verifiedBidder "bidder1" 1100 0
        = some (applyBid scenarioCAuction "bidder1" 1100 0)
    ∧ (scenarioCAuction.config.autoExtend = true →
        scenarioCAuction.biddingEndsAt - 0 < scenarioCAuction.config.extensionTime * 1000 →
        jsOrInt scenarioCAuction.extensions 0
            < jsOrInt scenarioCAuction.config.maxExtensions 3 →
        (applyBid scenarioCAuction "bidder1" 1100 0).biddingEndsAt
            = 0 + scenarioCAuction.config.extensionTime * 1000
        ∧ (applyBid scenarioCAuction "bidder1" 1100 0).extensions
            = some (jsOrInt scenarioCAuction.extensions 0 + 1))
    ∧ (¬ (scenarioCAuction.config.autoExtend = true
          ∧ scenarioCAuction.biddingEndsAt - 0
              < scenarioCAuction.config.extensionTime * 1000
          ∧ jsOrInt scenarioCAuction.extensions 0
              < jsOrInt scenarioCAuction.config.maxExtensions 3) →
        (applyBid scenarioCAuction "bidder1" 1100 0).biddingEndsAt
            = scenarioCAuction.biddingEndsAt
        ∧ (applyBid scenarioCAuction "bidder1" 1100 0).extensions
            = scenarioCAuction.extensions) :=
  C7_theorem scenarioCAuction verifiedBidder "bidder1" 1100 0
    (by decide) (by decide) (by decide) (by decide)

/-- C8: whenever `placeBid` ends in any thrown error — a validation
rejection or a failed save/commit — the transaction is rolled back and the
stored auction row is exactly the pre-call one; a committed state is only
ever the complete mutation.  (The service writes no separate Bid row at
all — the bid is only logged — so the append-only log is trivially
untouched as well.) -/
theorem C8_theorem (db : Option Auction) (u : Option User) (bidderId : String)
    (amount now : Int) (persistOk : Bool) (e : BidError)
    (h : (placeBidStore db u bidderId amount now persistOk).2 = Except.error e) :
    (placeBidStore db u bidderId amount now persistOk).1 = db := by
  cases hpb : placeBid db u bidderId amount now persistOk with
  | error e2 => simp [placeBidStore, hpb]
  | ok p => simp [placeBidStore, hpb] at h

/-- C8, witness: a rejected bid (unknown bidder account) leaves the stored
row untouched. -/
theorem C8_witness :
    (placeBidStore (some scenarioAAuction) none "someone" 50 100 true).1
      = some scenarioAAuction :=
  C8_theorem (some scenarioAAuction) none "someone" 50 100 true
    BidError.bidderNotFound rfl

/-- C9, counterexample.  The claim states `biddingEndsAt` never decreases
across any sequence of operations; `AuctionService.updateAuction` deletes
only the six protected bid fields from the payload and applies the rest,
so a payload carrying an earlier `timing.biddingEndsAt` moves the deadline
backward from 10000 to 500. -/
theorem C9_counterexample :
    longAuction.biddingEndsAt = 10000
    ∧ ((updateAuction (some longAuction) shrinkUpdate none).1.map
        Auction.biddingEndsAt) = some 500
    ∧ ((updateAuction (some longAuction) shrinkUpdate none).2.toOption.map
        Auction.biddingEndsAt) = some 500 := by
  decide

/-- C9, amended.  `biddingEndsAt` never decreases under the bid-commit
path (with or without auto-extension), the status-update path, or the
sweep; the general record update `updateAuction` does not protect the
`timing` fields and can move it backward. -/
theorem C9_theorem :
    (∀ (a : Auction) (bidderId : String) (amount now : Int),
        a.biddingEndsAt ≤ (applyBid a bidderId amount now).biddingEndsAt)
    ∧ (∀ (a : Auction) (st : AuctionStatus),
        (applyStatus a st).biddingEndsAt = a.biddingEndsAt)
    ∧ (∀ (a : Auction) (now : Int),
        (sweepOne now a).biddingEndsAt = a.biddingEndsAt) := by
  refine ⟨applyBid_endsAt_mono, ?_, ?_⟩
  · intro a st
    unfold applyStatus
    dsimp only
    split_ifs <;> rfl
  · intro a now
    unfold sweepOne
    split_ifs <;> rfl

/-- C10: the sweep closes exactly the `live`-status auctions whose current
time falls outside the CLOSED interval from `biddingStartsAt` to
`biddingEndsAt` (other rows keep their status) — in particular a
`live`-status auction whose window has not opened yet is force-ended even
though its deadline has not passed. -/
theorem C10_theorem (a : Auction) (now : Int) :
    ((sweepOne now a).status = AuctionStatus.ended
      ↔ (a.status = AuctionStatus.ended
          ∨ (a.status = AuctionStatus.live
              ∧ ¬ (a.biddingStartsAt ≤ now ∧ now ≤ a.biddingEndsAt))))
    ∧ (a.status = AuctionStatus.live → now < a.biddingStartsAt →
        (sweepOne now a).status = AuctionStatus.ended) := by
  constructor
  · unfold sweepOne
    split_ifs with h
    · have hw : ¬ (a.biddingStartsAt ≤ now ∧ now ≤ a.biddingEndsAt) := by
        intro hc
        exact h.2 ((isLive_iff a now).mpr ⟨h.1, hc⟩)
      simp [h.1, hw]
    · push_neg at h
      constructor
      · intro he
        exact Or.inl he
      · rintro (he | ⟨hl, hw⟩)
        · exact he
        · exact absurd ((isLive_iff a now).mp (h hl)).2 hw
  · intro hl hns
    have hni : ¬ (a.isLive now = true) := by
      intro hL
      have := ((isLive_iff a now).mp hL).2.1
      omega
    simp [sweepOne, hl, hni]

/-- C10, witness: a `live`-status auction whose `biddingStartsAt` is still
in the future is ended by the sweep. -/
theorem C10_witness :
    (sweepOne 50 futureStartAuction).status = AuctionStatus.ended :=
  (C10_theorem futureStartAuction 50).2 rfl (by decide)

end BidMaster
